import Mathlib

/-!
Verification of the weather-service core against its specification.

Shallow embedding conventions:
* Go `time.Time` / `time.Duration` values are modelled as `Int` (int64
  nanoseconds); `time.Since(t)` at a model instant `now` is `now - t`,
  `t.Before(u)` is `t < u`.
* Go floating-point payload fields (temperatures, humidity, ...) are never
  computed with in the verified code paths, only carried; they are modelled
  as `Int` so equality stays decidable.
* Go maps are modelled as association lists: `mapLookup` is indexing,
  `mapInsert` is `m[k] = v` (replace the binding if the key is present,
  otherwise add it).
* A wrapped provider / data source is modelled as a function giving, for the
  single upstream invocation a call can make, the `(value, error)` pair the
  Go call would return; `none` in the error position is Go `nil`.
* Each decorator operation returns, besides its Go results, the successor
  state and the number of upstream invocations it performed, so that
  "does not invoke the wrapped source" is a provable statement.
-/

/-- models.WeatherData (models/weather.go). -/
structure WeatherData where
  Provider : String
  Location : String
  Temperature : Int
  Humidity : Int
  WindSpeed : Int
  Pressure : Int
  Description : String
  Icon : String
  WindDeg : Int
  Timestamp : Int
deriving DecidableEq

/-- The Go zero value `models.WeatherData{}`. -/
def WeatherData.zero : WeatherData :=
  { Provider := "", Location := "", Temperature := 0, Humidity := 0,
    WindSpeed := 0, Pressure := 0, Description := "", Icon := "",
    WindDeg := 0, Timestamp := 0 }

/-- models.Forecast: a single forecast point. -/
structure Forecast where
  Temperature : Int
  Humidity : Int
  WindSpeed : Int
  WindDeg : Int
  Pressure : Int
  Description : String
  Icon : String
  Timestamp : Int
deriving DecidableEq

/-- models.ForecastData: a forecast series from one provider. -/
structure ForecastData where
  Provider : String
  Location : String
  Forecasts : List Forecast
  Updated : Int
deriving DecidableEq

/-- The Go zero value `models.ForecastData{}`. -/
def ForecastData.zero : ForecastData :=
  { Provider := "", Location := "", Forecasts := [], Updated := 0 }

/-- Go map indexing `m[k]` (comma-ok form), on the association-list model. -/
def mapLookup {α : Type} : List (String × α) → String → Option α
  | [], _ => none
  | (k, v) :: rest, key => if k = key then some v else mapLookup rest key

/-- Go map assignment `m[k] = v`, on the association-list model. -/
def mapInsert {α : Type} : List (String × α) → String → α → List (String × α)
  | [], key, v => [(key, v)]
  | (k, w) :: rest, key, v =>
    if k = key then (k, v) :: rest else (k, w) :: mapInsert rest key v

theorem mapLookup_mapInsert_self {α : Type} (m : List (String × α)) (k : String) (v : α) :
    mapLookup (mapInsert m k v) k = some v := by
  induction m with
  | nil => simp [mapInsert, mapLookup]
  | cons hd tl ih =>
    obtain ⟨k0, w⟩ := hd
    by_cases hk : k0 = k
    · simp [mapInsert, mapLookup, hk]
    · simp [mapInsert, mapLookup, hk, ih]

/-- cache.cacheEntry: a cached weather value with its fetch timestamp. -/
structure cacheEntry where
  Data : WeatherData
  Timestamp : Int
deriving DecidableEq

/-- cache.CachedDataSource: the mutable state of the weather caching
decorator (the wrapped source itself is passed to each call). -/
structure CachedDataSource where
  cache : List (String × cacheEntry)
  cacheDuration : Int
  cacheHitCount : Nat
  cacheMissCount : Nat
deriving DecidableEq

/-- cache.NewCachedDataSource. -/
def NewCachedDataSource (cacheDuration : Int) : CachedDataSource :=
  { cache := [], cacheDuration := cacheDuration,
    cacheHitCount := 0, cacheMissCount := 0 }

/-- Result of one `FetchWeatherData` call: the returned `(data, err)` pair,
the successor decorator state, the number of upstream invocations made by
this call, and whether the call took the cache-hit branch. -/
structure FetchResult where
  data : WeatherData
  err : Option String
  state : CachedDataSource
  upstreamCalls : Nat
  isHit : Bool
deriving DecidableEq

/-- The miss branch of `CachedDataSource.FetchWeatherData` (everything after
the `if found && ... < c.cacheDuration` guard fails): bump the miss counter,
invoke the wrapped source once; on error return the zero value and the error
without touching the cache map; on success store the fresh entry. -/
def fetchWeatherMiss (c : CachedDataSource) (src : String → WeatherData × Option String)
    (now : Int) (location : String) : FetchResult :=
  let c1 : CachedDataSource :=
    { c with cacheMissCount := c.cacheMissCount + 1 }
  let res := src location
  match res.2 with
  | some e =>
    { data := WeatherData.zero, err := some e, state := c1,
      upstreamCalls := 1, isHit := false }
  | none =>
    { data := res.1, err := none,
      state := { c1 with
                  cache := mapInsert c1.cache location
                    { Data := res.1, Timestamp := now } },
      upstreamCalls := 1, isHit := false }

/-- cache.CachedDataSource.FetchWeatherData at model instant `now`:
if the location is cached and the entry's age is strictly below
`cacheDuration`, count a hit and return the cached value without calling
upstream; otherwise take the miss branch. -/
def CachedDataSource.FetchWeatherData (c : CachedDataSource)
    (src : String → WeatherData × Option String) (now : Int)
    (location : String) : FetchResult :=
  match mapLookup c.cache location with
  | some entry =>
    if now - entry.Timestamp < c.cacheDuration then
      { data := entry.Data, err := none,
        state := { c with cacheHitCount := c.cacheHitCount + 1 },
        upstreamCalls := 0, isHit := true }
    else
      fetchWeatherMiss c src now location
  | none => fetchWeatherMiss c src now location

/-- cache.CachedDataSource.CacheStats. -/
def CachedDataSource.CacheStats (c : CachedDataSource) : Nat × Nat :=
  (c.cacheHitCount, c.cacheMissCount)

/-- cache.forecastCacheEntry. -/
structure forecastCacheEntry where
  Data : ForecastData
  Timestamp : Int
deriving DecidableEq

/-- cache.CachedForecastSource: state of the forecast caching decorator. -/
structure CachedForecastSource where
  cache : List (String × forecastCacheEntry)
  cacheDuration : Int
  cacheHitCount : Nat
  cacheMissCount : Nat
deriving DecidableEq

/-- cache.NewCachedForecastSource. -/
def NewCachedForecastSource (cacheDuration : Int) : CachedForecastSource :=
  { cache := [], cacheDuration := cacheDuration,
    cacheHitCount := 0, cacheMissCount := 0 }

/-- Result of one `FetchForecast` call, mirroring `FetchResult`. -/
structure ForecastFetchResult where
  data : ForecastData
  err : Option String
  state : CachedForecastSource
  upstreamCalls : Nat
  isHit : Bool
deriving DecidableEq

/-- The cache key `fmt.Sprintf("%s:%d", location, days)`. -/
def forecastCacheKey (location : String) (days : Nat) : String :=
  location ++ ":" ++ toString days

/-- The miss branch of `CachedForecastSource.FetchForecast`. -/
def fetchForecastMiss (c : CachedForecastSource)
    (src : String → Nat → ForecastData × Option String) (now : Int)
    (location : String) (days : Nat) : ForecastFetchResult :=
  let c1 : CachedForecastSource :=
    { c with cacheMissCount := c.cacheMissCount + 1 }
  let res := src location days
  match res.2 with
  | some e =>
    { data := ForecastData.zero, err := some e, state := c1,
      upstreamCalls := 1, isHit := false }
  | none =>
    { data := res.1, err := none,
      state := { c1 with
                  cache := mapInsert c1.cache (forecastCacheKey location days)
                    { Data := res.1, Timestamp := now } },
      upstreamCalls := 1, isHit := false }

/-- cache.CachedForecastSource.FetchForecast at model instant `now`. -/
def CachedForecastSource.FetchForecast (c : CachedForecastSource)
    (src : String → Nat → ForecastData × Option String) (now : Int)
    (location : String) (days : Nat) : ForecastFetchResult :=
  match mapLookup c.cache (forecastCacheKey location days) with
  | some entry =>
    if now - entry.Timestamp < c.cacheDuration then
      { data := entry.Data, err := none,
        state := { c with cacheHitCount := c.cacheHitCount + 1 },
        upstreamCalls := 0, isHit := true }
    else
      fetchForecastMiss c src now location days
  | none => fetchForecastMiss c src now location days

/-- cache.CachedForecastSource.CacheStats. -/
def CachedForecastSource.CacheStats (c : CachedForecastSource) : Nat × Nat :=
  (c.cacheHitCount, c.cacheMissCount)

/-- Concrete fixtures used by witnesses. -/
def sampleWeather : WeatherData :=
  { Provider := "OpenWeatherMap", Location := "London,UK", Temperature := 15,
    Humidity := 70, WindSpeed := 5, Pressure := 1012, Description := "cloudy",
    Icon := "04d", WindDeg := 180, Timestamp := 0 }

def srcOk : String → WeatherData × Option String :=
  fun _ => (sampleWeather, none)

def srcDown : String → WeatherData × Option String :=
  fun _ => (WeatherData.zero, some "upstream down")

def sampleForecast : ForecastData :=
  { Provider := "WeatherAPI", Location := "London,UK", Forecasts := [],
    Updated := 0 }

def fsrcOk : String → Nat → ForecastData × Option String :=
  fun _ _ => (sampleForecast, none)

def fsrcDown : String → Nat → ForecastData × Option String :=
  fun _ _ => (ForecastData.zero, some "upstream down")

theorem fetchWeatherMiss_shape (c : CachedDataSource)
    (src : String → WeatherData × Option String) (now : Int) (loc : String) :
    (fetchWeatherMiss c src now loc).upstreamCalls = 1 ∧
    (fetchWeatherMiss c src now loc).isHit = false ∧
    (fetchWeatherMiss c src now loc).state.cacheDuration = c.cacheDuration := by
  unfold fetchWeatherMiss
  cases h2 : (src loc).2 <;> simp [h2]

theorem fetchWeather_success_cached (c : CachedDataSource)
    (src : String → WeatherData × Option String) (now : Int) (loc : String)
    (hhit : (c.FetchWeatherData src now loc).isHit = false)
    (herr : (c.FetchWeatherData src now loc).err = none) :
    mapLookup (c.FetchWeatherData src now loc).state.cache loc
      = some { Data := (c.FetchWeatherData src now loc).data, Timestamp := now } ∧
    (c.FetchWeatherData src now loc).state.cacheDuration = c.cacheDuration := by
  simp only [CachedDataSource.FetchWeatherData] at hhit herr ⊢
  cases hm : mapLookup c.cache loc with
  | some entry =>
    simp only [hm] at hhit herr ⊢
    by_cases hage : now - entry.Timestamp < c.cacheDuration
    · simp [hage] at hhit
    · simp only [if_neg hage, fetchWeatherMiss] at herr ⊢
      cases h2 : (src loc).2 with
      | some e => simp [h2] at herr
      | none =>
        simp only [h2]
        exact ⟨mapLookup_mapInsert_self _ _ _, trivial⟩
  | none =>
    simp only [hm, fetchWeatherMiss] at herr ⊢
    cases h2 : (src loc).2 with
    | some e => simp [h2] at herr
    | none =>
      simp only [h2]
      exact ⟨mapLookup_mapInsert_self _ _ _, trivial⟩

theorem fetchWeather_on_entry (c : CachedDataSource)
    (src : String → WeatherData × Option String) (now : Int) (loc : String)
    (entry : cacheEntry) (hl : mapLookup c.cache loc = some entry) :
    (now - entry.Timestamp < c.cacheDuration →
      (c.FetchWeatherData src now loc).isHit = true ∧
      (c.FetchWeatherData src now loc).data = entry.Data ∧
      (c.FetchWeatherData src now loc).err = none ∧
      (c.FetchWeatherData src now loc).upstreamCalls = 0) ∧
    (c.cacheDuration ≤ now - entry.Timestamp →
      (c.FetchWeatherData src now loc).isHit = false ∧
      (c.FetchWeatherData src now loc).upstreamCalls = 1) := by
  simp only [CachedDataSource.FetchWeatherData, hl]
  constructor
  · intro hage
    simp [hage]
  · intro hage
    rw [if_neg (not_lt.mpr hage)]
    exact ⟨(fetchWeatherMiss_shape c src now loc).2.1,
           (fetchWeatherMiss_shape c src now loc).1⟩

theorem fetchForecastMiss_shape (c : CachedForecastSource)
    (src : String → Nat → ForecastData × Option String) (now : Int)
    (loc : String) (days : Nat) :
    (fetchForecastMiss c src now loc days).upstreamCalls = 1 ∧
    (fetchForecastMiss c src now loc days).isHit = false ∧
    (fetchForecastMiss c src now loc days).state.cacheDuration = c.cacheDuration := by
  unfold fetchForecastMiss
  cases h2 : (src loc days).2 <;> simp [h2]

theorem fetchForecast_success_cached (c : CachedForecastSource)
    (src : String → Nat → ForecastData × Option String) (now : Int)
    (loc : String) (days : Nat)
    (hhit : (c.FetchForecast src now loc days).isHit = false)
    (herr : (c.FetchForecast src now loc days).err = none) :
    mapLookup (c.FetchForecast src now loc days).state.cache
        (forecastCacheKey loc days)
      = some { Data := (c.FetchForecast src now loc days).data,
               Timestamp := now } ∧
    (c.FetchForecast src now loc days).state.cacheDuration = c.cacheDuration := by
  simp only [CachedForecastSource.FetchForecast] at hhit herr ⊢
  cases hm : mapLookup c.cache (forecastCacheKey loc days) with
  | some entry =>
    simp only [hm] at hhit herr ⊢
    by_cases hage : now - entry.Timestamp < c.cacheDuration
    · simp [hage] at hhit
    · simp only [if_neg hage, fetchForecastMiss] at herr ⊢
      cases h2 : (src loc days).2 with
      | some e => simp [h2] at herr
      | none =>
        simp only [h2]
        exact ⟨mapLookup_mapInsert_self _ _ _, trivial⟩
  | none =>
    simp only [hm, fetchForecastMiss] at herr ⊢
    cases h2 : (src loc days).2 with
    | some e => simp [h2] at herr
    | none =>
      simp only [h2]
      exact ⟨mapLookup_mapInsert_self _ _ _, trivial⟩

theorem fetchForecast_on_entry (c : CachedForecastSource)
    (src : String → Nat → ForecastData × Option String) (now : Int)
    (loc : String) (days : Nat) (entry : forecastCacheEntry)
    (hl : mapLookup c.cache (forecastCacheKey loc days) = some entry) :
    (now - entry.Timestamp < c.cacheDuration →
      (c.FetchForecast src now loc days).isHit = true ∧
      (c.FetchForecast src now loc days).data = entry.Data ∧
      (c.FetchForecast src now loc days).err = none ∧
      (c.FetchForecast src now loc days).upstreamCalls = 0) ∧
    (c.cacheDuration ≤ now - entry.Timestamp →
      (c.FetchForecast src now loc days).isHit = false ∧
      (c.FetchForecast src now loc days).upstreamCalls = 1) := by
  simp only [CachedForecastSource.FetchForecast, hl]
  constructor
  · intro hage
    simp [hage]
  · intro hage
    rw [if_neg (not_lt.mpr hage)]
    exact ⟨(fetchForecastMiss_shape c src now loc days).2.1,
           (fetchForecastMiss_shape c src now loc days).1⟩

/-- C1: for every cache validity window and access times t0 < t1 on the
caching decorators (weather and forecast): after a successful live fetch
at t0 for a key, a read of the same key at t1 with t1 - t0 < cacheDuration
is classified a hit, returns the cached value, and does not invoke the
wrapped source; a read at t1 with t1 - t0 ≥ cacheDuration is classified a
miss and invokes the wrapped source exactly once more. -/
theorem cache_window_hit_miss
    (c : CachedDataSource) (src0 src1 : String → WeatherData × Option String)
    (cf : CachedForecastSource)
    (fsrc0 fsrc1 : String → Nat → ForecastData × Option String)
    (t0 t1 : Int) (loc : String) (days : Nat)
    (ht : t0 < t1)
    (h0hit : (c.FetchWeatherData src0 t0 loc).isHit = false)
    (h0err : (c.FetchWeatherData src0 t0 loc).err = none)
    (g0hit : (cf.FetchForecast fsrc0 t0 loc days).isHit = false)
    (g0err : (cf.FetchForecast fsrc0 t0 loc days).err = none) :
    (t1 - t0 < c.cacheDuration →
      ((c.FetchWeatherData src0 t0 loc).state.FetchWeatherData src1 t1 loc).isHit = true ∧
      ((c.FetchWeatherData src0 t0 loc).state.FetchWeatherData src1 t1 loc).data
        = (c.FetchWeatherData src0 t0 loc).data ∧
      ((c.FetchWeatherData src0 t0 loc).state.FetchWeatherData src1 t1 loc).err = none ∧
      ((c.FetchWeatherData src0 t0 loc).state.FetchWeatherData src1 t1 loc).upstreamCalls = 0) ∧
    (c.cacheDuration ≤ t1 - t0 →
      ((c.FetchWeatherData src0 t0 loc).state.FetchWeatherData src1 t1 loc).isHit = false ∧
      ((c.FetchWeatherData src0 t0 loc).state.FetchWeatherData src1 t1 loc).upstreamCalls = 1) ∧
    (t1 - t0 < cf.cacheDuration →
      ((cf.FetchForecast fsrc0 t0 loc days).state.FetchForecast fsrc1 t1 loc days).isHit = true ∧
      ((cf.FetchForecast fsrc0 t0 loc days).state.FetchForecast fsrc1 t1 loc days).data
        = (cf.FetchForecast fsrc0 t0 loc days).data ∧
      ((cf.FetchForecast fsrc0 t0 loc days).state.FetchForecast fsrc1 t1 loc days).err = none ∧
      ((cf.FetchForecast fsrc0 t0 loc days).state.FetchForecast fsrc1 t1 loc days).upstreamCalls = 0) ∧
    (cf.cacheDuration ≤ t1 - t0 →
      ((cf.FetchForecast fsrc0 t0 loc days).state.FetchForecast fsrc1 t1 loc days).isHit = false ∧
      ((cf.FetchForecast fsrc0 t0 loc days).state.FetchForecast fsrc1 t1 loc days).upstreamCalls = 1) := by
  obtain ⟨hc, hd⟩ := fetchWeather_success_cached c src0 t0 loc h0hit h0err
  obtain ⟨gc, gd⟩ := fetchForecast_success_cached cf fsrc0 t0 loc days g0hit g0err
  have H := fetchWeather_on_entry (c.FetchWeatherData src0 t0 loc).state src1 t1 loc _ hc
  have G := fetchForecast_on_entry (cf.FetchForecast fsrc0 t0 loc days).state fsrc1 t1 loc days _ gc
  refine ⟨?_, ?_, ?_, ?_⟩
  · intro hw
    have := H.1 (by rw [hd]; exact hw)
    exact ⟨this.1, this.2.1, this.2.2.1, this.2.2.2⟩
  · intro hw
    exact H.2 (by rw [hd]; exact hw)
  · intro hw
    have := G.1 (by rw [gd]; exact hw)
    exact ⟨this.1, this.2.1, this.2.2.1, this.2.2.2⟩
  · intro hw
    exact G.2 (by rw [gd]; exact hw)

/-- Witness for `cache_window_hit_miss`: a fresh decorator with a 10-tick
window, a successful fetch at t0 = 0, re-read at t1 = 3. -/
theorem cache_window_hit_miss_witness :
    ((0 : Int) < 3 ∧
     ((NewCachedDataSource 10).FetchWeatherData srcOk 0 "London,UK").isHit = false ∧
     ((NewCachedDataSource 10).FetchWeatherData srcOk 0 "London,UK").err = none ∧
     ((NewCachedForecastSource 10).FetchForecast fsrcOk 0 "London,UK" 3).isHit = false ∧
     ((NewCachedForecastSource 10).FetchForecast fsrcOk 0 "London,UK" 3).err = none) ∧
    ((((NewCachedDataSource 10).FetchWeatherData srcOk 0 "London,UK").state.FetchWeatherData
        srcDown 3 "London,UK").isHit = true ∧
     (((NewCachedDataSource 10).FetchWeatherData srcOk 0 "London,UK").state.FetchWeatherData
        srcDown 3 "London,UK").data = sampleWeather ∧
     (((NewCachedDataSource 10).FetchWeatherData srcOk 0 "London,UK").state.FetchWeatherData
        srcDown 3 "London,UK").upstreamCalls = 0) := by
  refine ⟨⟨by decide, by decide, by decide, by decide, by decide⟩, ?_⟩
  have h := cache_window_hit_miss (NewCachedDataSource 10) srcOk srcDown
    (NewCachedForecastSource 10) fsrcOk fsrcDown 0 3 "London,UK" 3
    (by decide) (by decide) (by decide) (by decide) (by decide)
  have hw := h.1 (by decide)
  exact ⟨hw.1, by rw [hw.2.1]; decide, hw.2.2.2⟩

theorem fetchWeather_miss_eq (c : CachedDataSource)
    (src : String → WeatherData × Option String) (now : Int) (loc : String)
    (hmiss : (c.FetchWeatherData src now loc).isHit = false) :
    c.FetchWeatherData src now loc = fetchWeatherMiss c src now loc := by
  simp only [CachedDataSource.FetchWeatherData] at hmiss ⊢
  cases hm : mapLookup c.cache loc with
  | some entry =>
    simp only [hm] at hmiss ⊢
    by_cases hage : now - entry.Timestamp < c.cacheDuration
    · simp [hage] at hmiss
    · simp [hage]
  | none => simp [hm]

theorem fetchWeatherMiss_error (c : CachedDataSource)
    (src : String → WeatherData × Option String) (now : Int) (loc : String)
    (e : String) (hsrc : (src loc).2 = some e) :
    (fetchWeatherMiss c src now loc).err = some e ∧
    (fetchWeatherMiss c src now loc).data = WeatherData.zero ∧
    (fetchWeatherMiss c src now loc).state.cache = c.cache := by
  simp [fetchWeatherMiss, hsrc]

theorem fetchForecast_miss_eq (c : CachedForecastSource)
    (src : String → Nat → ForecastData × Option String) (now : Int)
    (loc : String) (days : Nat)
    (hmiss : (c.FetchForecast src now loc days).isHit = false) :
    c.FetchForecast src now loc days = fetchForecastMiss c src now loc days := by
  simp only [CachedForecastSource.FetchForecast] at hmiss ⊢
  cases hm : mapLookup c.cache (forecastCacheKey loc days) with
  | some entry =>
    simp only [hm] at hmiss ⊢
    by_cases hage : now - entry.Timestamp < c.cacheDuration
    · simp [hage] at hmiss
    · simp [hage]
  | none => simp [hm]

theorem fetchForecastMiss_error (c : CachedForecastSource)
    (src : String → Nat → ForecastData × Option String) (now : Int)
    (loc : String) (days : Nat) (e : String)
    (hsrc : (src loc days).2 = some e) :
    (fetchForecastMiss c src now loc days).err = some e ∧
    (fetchForecastMiss c src now loc days).data = ForecastData.zero ∧
    (fetchForecastMiss c src now loc days).state.cache = c.cache := by
  simp [fetchForecastMiss, hsrc]

/-- C6: when the wrapped source returns an error on a (non-hit) call, both
caching decorators return that error unchanged (paired with the zero value,
per the Go return convention) and leave the cache map exactly as it was. -/
theorem cache_error_passthrough
    (c : CachedDataSource) (src : String → WeatherData × Option String)
    (cf : CachedForecastSource)
    (fsrc : String → Nat → ForecastData × Option String)
    (now : Int) (loc : String) (days : Nat) (e : String)
    (hsrc : (src loc).2 = some e)
    (hmiss : (c.FetchWeatherData src now loc).isHit = false)
    (hfsrc : (fsrc loc days).2 = some e)
    (hfmiss : (cf.FetchForecast fsrc now loc days).isHit = false) :
    (c.FetchWeatherData src now loc).err = some e ∧
    (c.FetchWeatherData src now loc).data = WeatherData.zero ∧
    (c.FetchWeatherData src now loc).state.cache = c.cache ∧
    (cf.FetchForecast fsrc now loc days).err = some e ∧
    (cf.FetchForecast fsrc now loc days).data = ForecastData.zero ∧
    (cf.FetchForecast fsrc now loc days).state.cache = cf.cache := by
  rw [fetchWeather_miss_eq c src now loc hmiss,
      fetchForecast_miss_eq cf fsrc now loc days hfmiss]
  obtain ⟨h1, h2, h3⟩ := fetchWeatherMiss_error c src now loc e hsrc
  obtain ⟨g1, g2, g3⟩ := fetchForecastMiss_error cf fsrc now loc days e hfsrc
  exact ⟨h1, h2, h3, g1, g2, g3⟩

/-- Witness for `cache_error_passthrough`: empty caches, a source that
fails with "upstream down". -/
theorem cache_error_passthrough_witness :
    (((srcDown "London,UK").2 = some "upstream down") ∧
     ((NewCachedDataSource 10).FetchWeatherData srcDown 0 "London,UK").isHit = false ∧
     ((fsrcDown "London,UK" 3).2 = some "upstream down") ∧
     ((NewCachedForecastSource 10).FetchForecast fsrcDown 0 "London,UK" 3).isHit = false) ∧
    (((NewCachedDataSource 10).FetchWeatherData srcDown 0 "London,UK").err
       = some "upstream down" ∧
     ((NewCachedDataSource 10).FetchWeatherData srcDown 0 "London,UK").data
       = WeatherData.zero ∧
     ((NewCachedDataSource 10).FetchWeatherData srcDown 0 "London,UK").state.cache
       = (NewCachedDataSource 10).cache ∧
     ((NewCachedForecastSource 10).FetchForecast fsrcDown 0 "London,UK" 3).err
       = some "upstream down" ∧
     ((NewCachedForecastSource 10).FetchForecast fsrcDown 0 "London,UK" 3).data
       = ForecastData.zero ∧
     ((NewCachedForecastSource 10).FetchForecast fsrcDown 0 "London,UK" 3).state.cache
       = (NewCachedForecastSource 10).cache) :=
  ⟨⟨by decide, by decide, by decide, by decide⟩,
   cache_error_passthrough (NewCachedDataSource 10) srcDown
     (NewCachedForecastSource 10) fsrcDown 0 "London,UK" 3 "upstream down"
     (by decide) (by decide) (by decide) (by decide)⟩

/-- C10: on a state holding an expired entry for a key, a read whose
upstream fetch fails returns the zero value with the error — it does not
fall back to the expired cached value — and the expired entry stays in the
cache map unmodified. -/
theorem cache_expired_no_fallback
    (c : CachedDataSource) (src : String → WeatherData × Option String)
    (now : Int) (loc : String) (entry : cacheEntry) (e : String)
    (hl : mapLookup c.cache loc = some entry)
    (hexp : c.cacheDuration ≤ now - entry.Timestamp)
    (hsrc : (src loc).2 = some e) :
    (c.FetchWeatherData src now loc).data = WeatherData.zero ∧
    (c.FetchWeatherData src now loc).err = some e ∧
    (c.FetchWeatherData src now loc).state.cache = c.cache ∧
    mapLookup (c.FetchWeatherData src now loc).state.cache loc = some entry := by
  have hmiss : (c.FetchWeatherData src now loc).isHit = false := by
    simp only [CachedDataSource.FetchWeatherData, hl, if_neg (not_lt.mpr hexp)]
    exact (fetchWeatherMiss_shape c src now loc).2.1
  rw [fetchWeather_miss_eq c src now loc hmiss]
  obtain ⟨h1, h2, h3⟩ := fetchWeatherMiss_error c src now loc e hsrc
  exact ⟨h2, h1, h3, by rw [h3]; exact hl⟩

/-- Witness for `cache_expired_no_fallback`: an entry fetched at t = 0 under
a 10-tick window, read at t = 25 with a failing upstream. -/
theorem cache_expired_no_fallback_witness :
    (mapLookup (CachedDataSource.mk
        [("London,UK", { Data := sampleWeather, Timestamp := 0 })] 10 0 0).cache
        "London,UK" = some { Data := sampleWeather, Timestamp := 0 } ∧
     (CachedDataSource.mk
        [("London,UK", { Data := sampleWeather, Timestamp := 0 })] 10 0 0).cacheDuration
        ≤ (25 : Int) - (0 : Int) ∧
     (srcDown "London,UK").2 = some "upstream down") ∧
    (((CachedDataSource.mk
        [("London,UK", { Data := sampleWeather, Timestamp := 0 })] 10 0 0).FetchWeatherData
        srcDown 25 "London,UK").data = WeatherData.zero ∧
     ((CachedDataSource.mk
        [("London,UK", { Data := sampleWeather, Timestamp := 0 })] 10 0 0).FetchWeatherData
        srcDown 25 "London,UK").err = some "upstream down" ∧
     ((CachedDataSource.mk
        [("London,UK", { Data := sampleWeather, Timestamp := 0 })] 10 0 0).FetchWeatherData
        srcDown 25 "London,UK").state.cache
       = (CachedDataSource.mk
        [("London,UK", { Data := sampleWeather, Timestamp := 0 })] 10 0 0).cache ∧
     mapLookup ((CachedDataSource.mk
        [("London,UK", { Data := sampleWeather, Timestamp := 0 })] 10 0 0).FetchWeatherData
        srcDown 25 "London,UK").state.cache "London,UK"
       = some { Data := sampleWeather, Timestamp := 0 }) :=
  ⟨⟨by decide, by decide, by decide⟩,
   cache_expired_no_fallback
     (CachedDataSource.mk
        [("London,UK", { Data := sampleWeather, Timestamp := 0 })] 10 0 0)
     srcDown 25 "London,UK" { Data := sampleWeather, Timestamp := 0 }
     "upstream down" (by decide) (by decide) (by decide)⟩

/-- One read call against the weather caching decorator: the wrapped
source's behavior for this call, the call instant, and the location. -/
structure WeatherCall where
  src : String → WeatherData × Option String
  now : Int
  location : String

/-- Run a sequence of read calls through the weather caching decorator,
threading the state; also returns each call's hit/miss classification. -/
def runWeatherCalls (c : CachedDataSource) :
    List WeatherCall → CachedDataSource × List Bool
  | [] => (c, [])
  | call :: rest =>
    let r := c.FetchWeatherData call.src call.now call.location
    let p := runWeatherCalls r.state rest
    (p.1, r.isHit :: p.2)

theorem fetchWeather_hit_counters (c : CachedDataSource)
    (src : String → WeatherData × Option String) (now : Int) (loc : String)
    (h : (c.FetchWeatherData src now loc).isHit = true) :
    (c.FetchWeatherData src now loc).state.cacheHitCount = c.cacheHitCount + 1 ∧
    (c.FetchWeatherData src now loc).state.cacheMissCount = c.cacheMissCount := by
  simp only [CachedDataSource.FetchWeatherData] at h ⊢
  cases hm : mapLookup c.cache loc with
  | some entry =>
    simp only [hm] at h ⊢
    by_cases hage : now - entry.Timestamp < c.cacheDuration
    · simp [hage]
    · simp only [if_neg hage] at h
      simp [(fetchWeatherMiss_shape c src now loc).2.1] at h
  | none =>
    simp only [hm] at h
    simp [(fetchWeatherMiss_shape c src now loc).2.1] at h

theorem fetchWeather_miss_counters (c : CachedDataSource)
    (src : String → WeatherData × Option String) (now : Int) (loc : String)
    (h : (c.FetchWeatherData src now loc).isHit = false) :
    (c.FetchWeatherData src now loc).state.cacheHitCount = c.cacheHitCount ∧
    (c.FetchWeatherData src now loc).state.cacheMissCount = c.cacheMissCount + 1 := by
  rw [fetchWeather_miss_eq c src now loc h]
  unfold fetchWeatherMiss
  cases h2 : (src loc).2 <;> simp [h2]

theorem fetchWeather_counter_step (c : CachedDataSource)
    (src : String → WeatherData × Option String) (now : Int) (loc : String) :
    (c.FetchWeatherData src now loc).state.cacheHitCount
      = c.cacheHitCount + (if (c.FetchWeatherData src now loc).isHit then 1 else 0) ∧
    (c.FetchWeatherData src now loc).state.cacheMissCount
      = c.cacheMissCount + (if (c.FetchWeatherData src now loc).isHit then 0 else 1) := by
  cases hhit : (c.FetchWeatherData src now loc).isHit with
  | true =>
    obtain ⟨a, b⟩ := fetchWeather_hit_counters c src now loc hhit
    simp [hhit, a, b]
  | false =>
    obtain ⟨a, b⟩ := fetchWeather_miss_counters c src now loc hhit
    simp [hhit, a, b]

theorem runWeatherCalls_counters (calls : List WeatherCall) :
    ∀ c : CachedDataSource,
    (runWeatherCalls c calls).1.cacheHitCount
      = c.cacheHitCount + (runWeatherCalls c calls).2.count true ∧
    (runWeatherCalls c calls).1.cacheMissCount
      = c.cacheMissCount + (runWeatherCalls c calls).2.count false := by
  induction calls with
  | nil => intro c; simp [runWeatherCalls]
  | cons call rest ih =>
    intro c
    simp only [runWeatherCalls]
    obtain ⟨ih1, ih2⟩ := ih (c.FetchWeatherData call.src call.now call.location).state
    obtain ⟨s1, s2⟩ := fetchWeather_counter_step c call.src call.now call.location
    constructor
    · rw [ih1, s1]
      cases hhit : (c.FetchWeatherData call.src call.now call.location).isHit <;>
        simp [hhit, List.count_cons] <;> omega
    · rw [ih2, s2]
      cases hhit : (c.FetchWeatherData call.src call.now call.location).isHit <;>
        simp [hhit, List.count_cons] <;> omega

/-- C7: each completed read call on the weather caching decorator bumps
exactly one of the hit/miss counters by one according to its
classification; over any call sequence the counters grow by exactly the
number of calls classified hit resp. miss, are monotonically
non-decreasing, and `CacheStats` exposes exactly these counters. -/
theorem cache_counters_exact (c : CachedDataSource)
    (src : String → WeatherData × Option String) (now : Int) (loc : String)
    (calls : List WeatherCall) :
    ((c.FetchWeatherData src now loc).state.cacheHitCount
       = c.cacheHitCount + (if (c.FetchWeatherData src now loc).isHit then 1 else 0)) ∧
    ((c.FetchWeatherData src now loc).state.cacheMissCount
       = c.cacheMissCount + (if (c.FetchWeatherData src now loc).isHit then 0 else 1)) ∧
    ((runWeatherCalls c calls).1.cacheHitCount
       = c.cacheHitCount + (runWeatherCalls c calls).2.count true) ∧
    ((runWeatherCalls c calls).1.cacheMissCount
       = c.cacheMissCount + (runWeatherCalls c calls).2.count false) ∧
    c.cacheHitCount ≤ (runWeatherCalls c calls).1.cacheHitCount ∧
    c.cacheMissCount ≤ (runWeatherCalls c calls).1.cacheMissCount ∧
    (runWeatherCalls c calls).1.CacheStats
      = ((runWeatherCalls c calls).1.cacheHitCount,
         (runWeatherCalls c calls).1.cacheMissCount) := by
  obtain ⟨s1, s2⟩ := fetchWeather_counter_step c src now loc
  obtain ⟨r1, r2⟩ := runWeatherCalls_counters calls c
  exact ⟨s1, s2, r1, r2, by rw [r1]; exact Nat.le_add_right _ _,
         by rw [r2]; exact Nat.le_add_right _ _, rfl⟩

/-- api.WeatherStore: latest readings keyed by location, one slice of
per-provider readings per location. -/
abbrev WeatherStore := List (String × List WeatherData)

/-- api.NewWeatherStore. -/
def NewWeatherStore : WeatherStore := []

/-- The provider scan loop inside `WeatherStore.UpdateWeather`: replace the
first entry whose Provider matches, in place; if none matches, append the
reading at the end. -/
def upsertProvider (data : WeatherData) : List WeatherData → List WeatherData
  | [] => [data]
  | x :: xs =>
    if x.Provider = data.Provider then data :: xs else x :: upsertProvider data xs

/-- api.WeatherStore.UpdateWeather: ensure the location's slice exists
(empty if absent), then upsert the reading by provider. -/
def UpdateWeather (s : WeatherStore) (data : WeatherData) : WeatherStore :=
  mapInsert s data.Location
    (upsertProvider data ((mapLookup s data.Location).getD []))

theorem upsertProvider_present (data : WeatherData) :
    ∀ l : List WeatherData,
    (∃ x ∈ l, x.Provider = data.Provider) →
    l.countP (fun y => y.Provider == data.Provider) ≤ 1 →
    ∃ pre x post,
      l = pre ++ x :: post ∧ x.Provider = data.Provider ∧
      (∀ y ∈ pre, y.Provider ≠ data.Provider) ∧
      upsertProvider data l = pre ++ data :: post ∧
      (pre ++ data :: post).countP (fun y => y.Provider == data.Provider) = 1 := by
  intro l
  induction l with
  | nil =>
    rintro ⟨x, hx, _⟩ _
    cases hx
  | cons a xs ih =>
    rintro ⟨x, hx, hxp⟩ hcount
    by_cases ha : a.Provider = data.Provider
    · have h0 : xs.countP (fun y => y.Provider == data.Provider) = 0 := by
        have hc := hcount
        simp [List.countP_cons, ha] at hc
        simpa [List.countP_eq_zero] using hc
      refine ⟨[], a, xs, by simp, ha, by simp, ?_, ?_⟩
      · simp [upsertProvider, ha]
      · simp [List.countP_cons, h0]
    · have hx2 : x ∈ xs := by
        rcases List.mem_cons.mp hx with h | h
        · exact absurd (h ▸ hxp) ha
        · exact h
      have hcount2 : xs.countP (fun y => y.Provider == data.Provider) ≤ 1 := by
        have hc := hcount
        simp [List.countP_cons, ha] at hc
        omega
      obtain ⟨pre, x0, post, heq, hxp0, hpre, hup, hcnt⟩ :=
        ih ⟨x, hx2, hxp⟩ hcount2
      refine ⟨a :: pre, x0, post, by rw [heq]; simp, hxp0, ?_, ?_, ?_⟩
      · intro y hy
        rcases List.mem_cons.mp hy with h | h
        · exact h ▸ ha
        · exact hpre y h
      · simp [upsertProvider, ha, hup]
      · have : (a :: pre) ++ data :: post = a :: (pre ++ data :: post) := rfl
        rw [this, List.countP_cons]
        simp only [hcnt]
        simp [ha]
    
theorem upsertProvider_absent (data : WeatherData) :
    ∀ l : List WeatherData, (∀ x ∈ l, x.Provider ≠ data.Provider) →
    upsertProvider data l = l ++ [data] := by
  intro l
  induction l with
  | nil => intro _; simp [upsertProvider]
  | cons a xs ih =>
    intro h
    have ha := h a (by simp)
    simp [upsertProvider, ha, ih (fun x hx => h x (List.mem_cons_of_mem a hx))]

/-- C3: updating a (location, provider) pair that is already present
replaces that record in place (first match), leaving exactly one record for
the pair and preserving the position of every other record for the
location; updating with a provider not yet present appends, so two distinct
providers for one location end up as two records side by side. The `hinv`
hypothesis is the store invariant that a pair occurs at most once. -/
theorem weatherstore_update_upsert (s : WeatherStore) (data : WeatherData)
    (hinv : ((mapLookup s data.Location).getD []).countP
        (fun y => y.Provider == data.Provider) ≤ 1) :
    ((∃ x ∈ (mapLookup s data.Location).getD [], x.Provider = data.Provider) →
      ∃ pre x post,
        (mapLookup s data.Location).getD [] = pre ++ x :: post ∧
        x.Provider = data.Provider ∧
        (∀ y ∈ pre, y.Provider ≠ data.Provider) ∧
        (mapLookup (UpdateWeather s data) data.Location).getD []
          = pre ++ data :: post ∧
        ((mapLookup (UpdateWeather s data) data.Location).getD []).countP
          (fun y => y.Provider == data.Provider) = 1) ∧
    ((∀ x ∈ (mapLookup s data.Location).getD [], x.Provider ≠ data.Provider) →
      (mapLookup (UpdateWeather s data) data.Location).getD []
        = (mapLookup s data.Location).getD [] ++ [data]) ∧
    (∀ r1 r2 : WeatherData, r2.Location = r1.Location →
      r2.Provider ≠ r1.Provider →
      (mapLookup (UpdateWeather (UpdateWeather NewWeatherStore r1) r2)
        r1.Location).getD [] = [r1, r2]) := by
  have hl2 : mapLookup (UpdateWeather s data) data.Location
      = some (upsertProvider data ((mapLookup s data.Location).getD [])) :=
    mapLookup_mapInsert_self _ _ _
  refine ⟨?_, ?_, ?_⟩
  · intro hmem
    obtain ⟨pre, x, post, heq, hxp, hpre, hup, hcnt⟩ :=
      upsertProvider_present data ((mapLookup s data.Location).getD []) hmem hinv
    exact ⟨pre, x, post, heq, hxp, hpre, by rw [hl2]; simpa using hup,
           by rw [hl2]; simpa [hup] using hcnt⟩
  · intro habs
    rw [hl2]
    simpa using upsertProvider_absent data _ habs
  · intro r1 r2 hloc hprov
    have hne : ¬ r1.Provider = r2.Provider := fun h => hprov h.symm
    have h1 : UpdateWeather NewWeatherStore r1 = [(r1.Location, [r1])] := by
      simp [UpdateWeather, NewWeatherStore, mapLookup, mapInsert, upsertProvider]
    have h2 : mapLookup [(r1.Location, [r1])] r2.Location = some [r1] := by
      simp [mapLookup, hloc]
    have h3 : upsertProvider r2 [r1] = [r1, r2] := by
      simp [upsertProvider, hne]
    rw [h1]
    simp only [UpdateWeather, h2, Option.getD_some, h3, hloc]
    rw [mapLookup_mapInsert_self]
    simp [mapLookup, h3]

/-- api.ForecastStore: forecasts keyed by location, then by provider. -/
abbrev ForecastStore := List (String × List (String × ForecastData))

/-- api.NewForecastStore. -/
def NewForecastStore : ForecastStore := []

/-- api.ForecastStore.UpdateForecast: replace the (location, provider)
entry wholesale. -/
def UpdateForecast (s : ForecastStore) (data : ForecastData) : ForecastStore :=
  mapInsert s data.Location
    (mapInsert ((mapLookup s data.Location).getD []) data.Provider data)

/-- api.ForecastStore.PruneOldForecasts: with cutoff = now - maxAge, delete
every provider entry with `Updated.Before(cutoff)`, counting deletions;
delete a location once it has no provider entries left; return the new
store and the count. -/
def PruneOldForecasts (now maxAge : Int) : ForecastStore → ForecastStore × Nat
  | [] => ([], 0)
  | (loc, ps) :: rest =>
    let cutoff := now - maxAge
    let kept := ps.filter (fun p => !decide (p.2.Updated < cutoff))
    let pr := PruneOldForecasts now maxAge rest
    (if kept.isEmpty then pr.1 else (loc, kept) :: pr.1,
     (ps.length - kept.length) + pr.2)

theorem length_sub_filter_not {α : Type} (p : α → Bool) (l : List α) :
    l.length - (l.filter (fun a => !p a)).length = l.countP p := by
  induction l with
  | nil => simp
  | cons a l ih =>
    have hle : (l.filter (fun a => !p a)).length ≤ l.length :=
      List.length_filter_le _ _
    cases hp : p a with
    | true => simp [List.filter_cons, hp, List.countP_cons]; omega
    | false => simp [List.filter_cons, hp, List.countP_cons]; omega

theorem prune_count (now maxAge : Int) : ∀ s : ForecastStore,
    (PruneOldForecasts now maxAge s).2
      = (s.map (fun lp =>
          lp.2.countP (fun p => decide (p.2.Updated < now - maxAge)))).sum := by
  intro s
  induction s with
  | nil => simp [PruneOldForecasts]
  | cons hd rest ih =>
    obtain ⟨loc, ps⟩ := hd
    simp only [PruneOldForecasts, List.map_cons, List.sum_cons]
    rw [ih, length_sub_filter_not]

theorem mapLookup_none_of_not_mem {α : Type} (k : String) :
    ∀ m : List (String × α), k ∉ m.map Prod.fst → mapLookup m k = none := by
  intro m
  induction m with
  | nil => intro _; rfl
  | cons hd rest ih =>
    obtain ⟨k0, v⟩ := hd
    intro h
    have hk : ¬ k0 = k := by
      intro he
      exact h (by simp [he])
    simp [mapLookup, hk]
    exact ih (fun hm => h (by simp [hm]))

theorem prune_lookup_none (now maxAge : Int) (loc : String) :
    ∀ s : ForecastStore, mapLookup s loc = none →
    mapLookup (PruneOldForecasts now maxAge s).1 loc = none := by
  intro s
  induction s with
  | nil => intro _; rfl
  | cons hd rest ih =>
    obtain ⟨loc0, ps⟩ := hd
    intro h
    have hk : ¬ loc0 = loc := by
      intro he
      simp [mapLookup, he] at h
    have hr : mapLookup rest loc = none := by
      simpa [mapLookup, hk] using h
    simp only [PruneOldForecasts]
    by_cases hkept :
        (ps.filter (fun p => !decide (p.2.Updated < now - maxAge))).isEmpty
    · simp [hkept, ih hr]
    · simp [hkept, mapLookup, hk, ih hr]

theorem prune_lookup (now maxAge : Int) (loc : String) :
    ∀ s : ForecastStore, (s.map Prod.fst).Nodup →
    ∀ ps, mapLookup s loc = some ps →
    (if (ps.filter (fun p => !decide (p.2.Updated < now - maxAge))).isEmpty
     then mapLookup (PruneOldForecasts now maxAge s).1 loc = none
     else mapLookup (PruneOldForecasts now maxAge s).1 loc
            = some (ps.filter (fun p => !decide (p.2.Updated < now - maxAge)))) := by
  intro s
  induction s with
  | nil =>
    intro _ ps h
    cases h
  | cons hd rest ih =>
    obtain ⟨loc0, ps0⟩ := hd
    intro hnd ps h
    rw [List.map_cons] at hnd
    have hnd0 : loc0 ∉ rest.map Prod.fst := (List.nodup_cons.mp hnd).1
    have hndr : (rest.map Prod.fst).Nodup := (List.nodup_cons.mp hnd).2
    by_cases hk : loc0 = loc
    · have hps : ps = ps0 := by
        simp [mapLookup, hk] at h
        exact h.symm
      subst hps
      subst hk
      have hrnone : mapLookup rest loc0 = none :=
        mapLookup_none_of_not_mem loc0 rest hnd0
      simp only [PruneOldForecasts]
      by_cases hkept :
          (ps.filter (fun p => !decide (p.2.Updated < now - maxAge))).isEmpty
      · simp [hkept]
        exact prune_lookup_none now maxAge loc0 rest hrnone
      · simp [hkept, mapLookup]
    · have hr : mapLookup rest loc = some ps := by
        simpa [mapLookup, hk] using h
      have htail := ih hndr ps hr
      simp only [PruneOldForecasts]
      by_cases hkept :
          (ps0.filter (fun p => !decide (p.2.Updated < now - maxAge))).isEmpty
      · simpa [hkept] using htail
      · by_cases hkept2 :
            (ps.filter (fun p => !decide (p.2.Updated < now - maxAge))).isEmpty
        · simp [hkept2] at htail ⊢
          simp [hkept, mapLookup, hk, htail]
        · simp [hkept2] at htail ⊢
          simp [hkept, mapLookup, hk, htail]

/-- A second reading for the same location from a different provider. -/
def sampleWeather2 : WeatherData :=
  { Provider := "WeatherAPI", Location := "London,UK", Temperature := 14,
    Humidity := 65, WindSpeed := 4, Pressure := 1010, Description := "light rain",
    Icon := "10d", WindDeg := 200, Timestamp := 5 }

/-- Witness for `weatherstore_update_upsert`: an empty store updated with
two readings for the same location from distinct providers holds both,
side by side and in update order. -/
theorem weatherstore_update_upsert_witness :
    (((mapLookup NewWeatherStore sampleWeather.Location).getD []).countP
        (fun y => y.Provider == sampleWeather.Provider) ≤ 1) ∧
    (mapLookup (UpdateWeather (UpdateWeather NewWeatherStore sampleWeather)
        sampleWeather2) sampleWeather.Location).getD []
      = [sampleWeather, sampleWeather2] := by
  refine ⟨by decide, ?_⟩
  have h := weatherstore_update_upsert NewWeatherStore sampleWeather (by decide)
  exact h.2.2 sampleWeather sampleWeather2 (by decide) (by decide)

/-- C4: `PruneOldForecasts maxAge` removes exactly the (location, provider)
entries whose `Updated` is strictly older than now - maxAge, returning the
number of provider entries removed (summed over all locations, not the
number of locations); every surviving entry is unchanged and keeps its
relative order, and a location whose entries are all pruned disappears
entirely, while a location keeping at least one entry survives with
exactly its fresh entries. -/
theorem forecast_prune_exact (s : ForecastStore) (now maxAge : Int)
    (hkeys : (s.map Prod.fst).Nodup) :
    (PruneOldForecasts now maxAge s).2
      = (s.map (fun lp =>
          lp.2.countP (fun p => decide (p.2.Updated < now - maxAge)))).sum ∧
    (∀ loc ps, mapLookup s loc = some ps →
      (if (ps.filter (fun p => !decide (p.2.Updated < now - maxAge))).isEmpty
       then mapLookup (PruneOldForecasts now maxAge s).1 loc = none
       else mapLookup (PruneOldForecasts now maxAge s).1 loc
              = some (ps.filter (fun p => !decide (p.2.Updated < now - maxAge))))) ∧
    (∀ loc, mapLookup s loc = none →
      mapLookup (PruneOldForecasts now maxAge s).1 loc = none) :=
  ⟨prune_count now maxAge s,
   fun loc ps h => prune_lookup now maxAge loc s hkeys ps h,
   fun loc h => prune_lookup_none now maxAge loc s h⟩

/-- A stale forecast series (Updated = 0). -/
def staleForecast : ForecastData :=
  { Provider := "OpenWeatherMap", Location := "Paris,FR", Forecasts := [],
    Updated := 0 }

/-- A fresh forecast series (Updated = 90). -/
def freshForecast : ForecastData :=
  { Provider := "WeatherAPI", Location := "Paris,FR", Forecasts := [],
    Updated := 90 }

/-- A store holding one stale and one fresh provider entry for Paris. -/
def parisStore : ForecastStore :=
  [("Paris,FR", [("OpenWeatherMap", staleForecast), ("WeatherAPI", freshForecast)])]

/-- Witness for `forecast_prune_exact`: pruning `parisStore` at now = 100
with maxAge = 50 removes exactly the stale entry (count 1) and leaves
Paris,FR present with only the fresh entry. -/
theorem forecast_prune_exact_witness :
    ((parisStore.map Prod.fst).Nodup) ∧
    (PruneOldForecasts 100 50 parisStore).2 = 1 ∧
    mapLookup (PruneOldForecasts 100 50 parisStore).1 "Paris,FR"
      = some [("WeatherAPI", freshForecast)] := by
  have h := forecast_prune_exact parisStore 100 50 (by decide)
  refine ⟨by decide, ?_, ?_⟩
  · rw [h.1]
    decide
  · have h2 := h.2.1 "Paris,FR"
      [("OpenWeatherMap", staleForecast), ("WeatherAPI", freshForecast)]
      (by decide)
    have hcond : (([("OpenWeatherMap", staleForecast),
        ("WeatherAPI", freshForecast)] : List (String × ForecastData)).filter
        (fun p => !decide (p.2.Updated < 100 - 50))).isEmpty = false := by decide
    rw [hcond] at h2
    simp only [Bool.false_eq_true, if_false] at h2
    rw [h2]
    decide

/-- datasource.RateLimitedWeatherProvider.GetWeather. The limiter wait's
outcome for this call is an input: `none` means a token was acquired,
`some e` means `limiter.Wait(ctx)` failed because the caller's context was
cancelled while waiting. The result carries the Go `(data, err)` pair and
the number of invocations of the wrapped provider. -/
def RateLimitedWeatherProvider.GetWeather (wait : Option String)
    (provider : String → WeatherData × Option String) (location : String) :
    (WeatherData × Option String) × Nat :=
  match wait with
  | some e => ((WeatherData.zero, some ("rate limit wait canceled: " ++ e)), 0)
  | none => (provider location, 1)

/-- datasource.RateLimitedForecastSource.FetchForecast, same conventions. -/
def RateLimitedForecastSource.FetchForecast (wait : Option String)
    (src : String → Nat → ForecastData × Option String) (location : String)
    (days : Nat) : (ForecastData × Option String) × Nat :=
  match wait with
  | some e => ((ForecastData.zero, some ("rate limit wait canceled: " ++ e)), 0)
  | none => (src location days, 1)

/-- C5: when the caller's cancellation fires while the rate-limiting
decorator is waiting for a token (the wait returns an error), the call
returns the cancellation error wrapped in the "rate limit wait canceled"
message together with the zero value, and the wrapped provider is never
invoked; when the wait succeeds, the call is forwarded exactly once with
its result returned verbatim. -/
theorem rate_limit_cancelled_no_upstream (e : String)
    (provider : String → WeatherData × Option String)
    (src : String → Nat → ForecastData × Option String)
    (loc : String) (days : Nat) :
    (RateLimitedWeatherProvider.GetWeather (some e) provider loc).1.2
      = some ("rate limit wait canceled: " ++ e) ∧
    (RateLimitedWeatherProvider.GetWeather (some e) provider loc).1.1
      = WeatherData.zero ∧
    (RateLimitedWeatherProvider.GetWeather (some e) provider loc).2 = 0 ∧
    (RateLimitedForecastSource.FetchForecast (some e) src loc days).1.2
      = some ("rate limit wait canceled: " ++ e) ∧
    (RateLimitedForecastSource.FetchForecast (some e) src loc days).2 = 0 ∧
    RateLimitedWeatherProvider.GetWeather none provider loc
      = (provider loc, 1) ∧
    RateLimitedForecastSource.FetchForecast none src loc days
      = (src loc days, 1) :=
  ⟨rfl, rfl, rfl, rfl, rfl, rfl, rfl⟩

/-- A weather-capable implementation: display name plus fetch behavior. -/
structure WeatherProviderImpl where
  name : String
  getWeather : String → WeatherData × Option String

/-- A forecast-capable implementation. -/
structure ForecastSourceImpl where
  name : String
  fetchForecast : String → Nat → ForecastData × Option String

/-- A dynamically-typed provider value as passed to NewRateLimitedProvider
(Go empty-interface argument): each capability is present or absent, as
revealed by a type assertion. -/
structure DynProvider where
  asWeatherProvider : Option WeatherProviderImpl
  asForecastSource : Option ForecastSourceImpl

/-- datasource.RateLimitedProvider: the combined wrapper holding both
capabilities and the two limiter configurations. -/
structure RateLimitedProvider where
  provider : WeatherProviderImpl
  forecastSrc : ForecastSourceImpl
  weatherRPS : ℚ
  forecastRPS : ℚ
  burst : Nat
  name : String

/-- datasource.NewRateLimitedProvider: derive the display name from
whichever capability is present (else "Unknown"), then perform the two
unchecked type assertions `provider.(WeatherProvider)` and
`provider.(ForecastSource)`; a failed assertion is a Go runtime panic,
modelled as an `Except.error`. -/
def NewRateLimitedProvider (p : DynProvider)
    (weatherRPS forecastRPS : ℚ) (burst : Nat) :
    Except String RateLimitedProvider :=
  let name :=
    match p.asWeatherProvider with
    | some wp => wp.name
    | none =>
      match p.asForecastSource with
      | some fs => fs.name
      | none => "Unknown"
  match p.asWeatherProvider with
  | none => .error "panic: interface conversion: provider is not a WeatherProvider"
  | some wp =>
    match p.asForecastSource with
    | none => .error "panic: interface conversion: provider is not a ForecastSource"
    | some fs =>
      .ok { provider := wp, forecastSrc := fs, weatherRPS := weatherRPS,
            forecastRPS := forecastRPS, burst := burst,
            name := name ++ " [Rate Limited]" }

/-- C9: constructing the combined rate-limited wrapper from a provider
that lacks either capability fails with a type-assertion panic instead of
returning a usable wrapper; when both capabilities are present the
construction succeeds and wraps exactly the given implementations. -/
theorem rate_limited_provider_requires_both (p : DynProvider)
    (wrps frps : ℚ) (b : Nat) :
    ((p.asWeatherProvider = none ∨ p.asForecastSource = none) →
      ∃ msg, NewRateLimitedProvider p wrps frps b = .error msg) ∧
    (∀ wp fs, p.asWeatherProvider = some wp → p.asForecastSource = some fs →
      ∃ rl, NewRateLimitedProvider p wrps frps b = .ok rl ∧
        rl.provider = wp ∧ rl.forecastSrc = fs) := by
  constructor
  · rintro (hw | hf)
    · exact ⟨"panic: interface conversion: provider is not a WeatherProvider",
        by simp [NewRateLimitedProvider, hw]⟩
    · cases hw : p.asWeatherProvider with
      | none =>
        exact ⟨"panic: interface conversion: provider is not a WeatherProvider",
          by simp [NewRateLimitedProvider, hw]⟩
      | some wp =>
        exact ⟨"panic: interface conversion: provider is not a ForecastSource",
          by simp [NewRateLimitedProvider, hw, hf]⟩
  · intro wp fs hw hf
    refine ⟨{ provider := wp, forecastSrc := fs, weatherRPS := wrps,
              forecastRPS := frps, burst := b,
              name := wp.name ++ " [Rate Limited]" }, ?_, rfl, rfl⟩
    simp [NewRateLimitedProvider, hw, hf]

/-- Weather capability fixture. -/
def owmWeather : WeatherProviderImpl :=
  { name := "OpenWeatherMap", getWeather := fun _ => (sampleWeather, none) }

/-- Forecast capability fixture. -/
def owmForecast : ForecastSourceImpl :=
  { name := "OpenWeatherMap", fetchForecast := fun _ _ => (sampleForecast, none) }

/-- A provider implementing only the weather capability. -/
def weatherOnlyProvider : DynProvider :=
  { asWeatherProvider := some owmWeather, asForecastSource := none }

/-- A provider implementing both capabilities. -/
def fullProvider : DynProvider :=
  { asWeatherProvider := some owmWeather, asForecastSource := some owmForecast }

/-- Witness for `rate_limited_provider_requires_both`: a weather-only
provider makes construction panic; a both-capability provider succeeds. -/
theorem rate_limited_provider_requires_both_witness :
    (weatherOnlyProvider.asWeatherProvider = none ∨
       weatherOnlyProvider.asForecastSource = none) ∧
    (∃ msg, NewRateLimitedProvider weatherOnlyProvider 1 1 1 = .error msg) ∧
    (∃ rl, NewRateLimitedProvider fullProvider 1 1 1 = .ok rl ∧
       rl.provider = owmWeather ∧ rl.forecastSrc = owmForecast) := by
  refine ⟨Or.inr rfl, ?_, ?_⟩
  · exact (rate_limited_provider_requires_both weatherOnlyProvider 1 1 1).1
      (Or.inr rfl)
  · exact (rate_limited_provider_requires_both fullProvider 1 1 1).2
      owmWeather owmForecast rfl rfl

/-- Modelled from the spec: the token-bucket admission policy used by the
rate-limiting decorator. The bucket implementation itself is the external
golang.org/x/time/rate limiter, not part of this repository's sources;
per the spec it holds at most `b` tokens, starts full, refills
continuously at the sustained rate `r` tokens per second, and each
admitted call consumes one token at its admission time.
`bucketRun r b prev tok ts` plays the admission times `ts` (in
non-decreasing order) starting from `tok` available tokens at time `prev`;
it returns the remaining tokens, or `none` when some admission is
inadmissible (out of order, or no full token available). -/
def bucketRun (r b : ℚ) : ℚ → ℚ → List ℚ → Option ℚ
  | _, tok, [] => some tok
  | prev, tok, t :: ts =>
    if prev ≤ t then
      if 1 ≤ min b (tok + r * (t - prev)) then
        bucketRun r b t (min b (tok + r * (t - prev)) - 1) ts
      else none
    else none

/-- The last element of a list of times, with default `d` for the empty
list (used for the admission time of the final call). -/
def lastD (d : ℚ) : List ℚ → ℚ
  | [] => d
  | t :: ts => lastD t ts

theorem bucketRun_bound (r b : ℚ) :
    ∀ (ts : List ℚ) (prev tok tokEnd : ℚ),
    bucketRun r b prev tok ts = some tokEnd →
    tokEnd + ts.length ≤ tok + r * (lastD prev ts - prev) := by
  intro ts
  induction ts with
  | nil =>
    intro prev tok tokEnd h
    simp only [bucketRun, Option.some.injEq] at h
    subst h
    simp [lastD]
  | cons t ts ih =>
    intro prev tok tokEnd h
    simp only [bucketRun] at h
    by_cases hord : prev ≤ t
    · rw [if_pos hord] at h
      by_cases htok : 1 ≤ min b (tok + r * (t - prev))
      · rw [if_pos htok] at h
        have hstep := ih t (min b (tok + r * (t - prev)) - 1) tokEnd h
        have hmin : min b (tok + r * (t - prev)) ≤ tok + r * (t - prev) :=
          min_le_right _ _
        have hring : r * (lastD t ts - t) + r * (t - prev)
            = r * (lastD t ts - prev) := by ring
        simp only [lastD, List.length_cons]
        push_cast
        linarith [hstep, hmin, hring]
      · rw [if_neg htok] at h
        cases h
    · rw [if_neg hord] at h
      cases h

theorem bucketRun_nonneg (r b : ℚ) :
    ∀ (ts : List ℚ) (prev tok tokEnd : ℚ), 0 ≤ tok →
    bucketRun r b prev tok ts = some tokEnd → 0 ≤ tokEnd := by
  intro ts
  induction ts with
  | nil =>
    intro prev tok tokEnd h0 h
    simp only [bucketRun, Option.some.injEq] at h
    subst h
    exact h0
  | cons t ts ih =>
    intro prev tok tokEnd h0 h
    simp only [bucketRun] at h
    by_cases hord : prev ≤ t
    · rw [if_pos hord] at h
      by_cases htok : 1 ≤ min b (tok + r * (t - prev))
      · rw [if_pos htok] at h
        exact ih t _ tokEnd (by linarith) h
      · rw [if_neg htok] at h
        cases h
    · rw [if_neg hord] at h
      cases h

theorem lastD_nonpos : ∀ (ts : List ℚ) (d : ℚ),
    (∀ t ∈ ts, t ≤ 0) → d ≤ 0 → lastD d ts ≤ 0 := by
  intro ts
  induction ts with
  | nil =>
    intro d _ hd
    simpa [lastD] using hd
  | cons t ts ih =>
    intro d h hd
    simp only [lastD]
    exact ih t (fun x hx => h x (by simp [hx])) (h t (by simp))

/-- C2: for a token bucket with sustained rate r > 0 and burst b, any
admissible schedule of N admission times with N > b has its last admission
no earlier than (N - b) / r after the start — so completing N calls takes
at least (N - b) / r and long-run throughput never exceeds r, for every N
and hence under arbitrarily many concurrent callers; moreover no schedule
admits more than b calls with no delay (all at time ≤ 0). -/
theorem rate_limiter_time_bound (r b : ℚ) (ts : List ℚ)
    (hr : 0 < r) (hb : 0 ≤ b)
    (hadm : (bucketRun r b 0 b ts).isSome = true) :
    (b < (ts.length : ℚ) → ((ts.length : ℚ) - b) / r ≤ lastD 0 ts) ∧
    ((∀ t ∈ ts, t ≤ 0) → (ts.length : ℚ) ≤ b) := by
  obtain ⟨tokEnd, hEnd⟩ := Option.isSome_iff_exists.mp hadm
  have hbound := bucketRun_bound r b ts 0 b tokEnd hEnd
  have hnn := bucketRun_nonneg r b ts 0 b tokEnd hb hEnd
  constructor
  · intro hN
    rw [div_le_iff hr]
    have hring : r * (lastD 0 ts - 0) = lastD 0 ts * r := by ring
    linarith [hbound, hnn, hring]
  · intro hall
    have hlast : lastD 0 ts ≤ 0 := lastD_nonpos ts 0 hall (le_refl 0)
    have hneg : r * (lastD 0 ts - 0) ≤ 0 := by
      have := mul_nonpos_of_nonneg_of_nonpos hr.le hlast
      linarith [this]
    linarith [hbound, hnn, hneg]

/-- Witness for `rate_limiter_time_bound`: rate 1/s, burst 2, three calls
admitted at times 0, 0, 2 — an admissible schedule with N = 3 > b = 2,
whose last admission indeed lies at 2 ≥ (3 - 2) / 1. -/
theorem rate_limiter_time_bound_witness :
    ((0 : ℚ) < 1 ∧ (0 : ℚ) ≤ 2 ∧
     (bucketRun 1 2 0 2 [0, 0, 2]).isSome = true) ∧
    ((2 : ℚ) < (([0, 0, 2] : List ℚ).length : ℚ) →
      (((([0, 0, 2] : List ℚ).length : ℚ)) - 2) / 1 ≤ lastD 0 [0, 0, 2]) := by
  refine ⟨⟨by norm_num, by norm_num, ?_⟩, ?_⟩
  · norm_num [bucketRun, min_def]
  · exact (rate_limiter_time_bound 1 2 [0, 0, 2] (by norm_num) (by norm_num)
      (by norm_num [bucketRun, min_def])).1
